import Mathlib

/-!
# Verification of the `SoundComputer` register-machine interpreter

Shallow embedding of `src/utils/machines/soundcomputer.rs` and of the
paired-mode ("duet") driver loop of `src/bin/day18.rs` from the aoc2017
repository, together with theorems settling the frozen claims about them.

Modelling conventions:
* Rust `i64` values are modelled as `Int`.  The only place where the `i64`
  range is observable to the claims is literal parsing (`str::parse::<i64>`
  fails on out-of-range literals), which is modelled with an explicit range
  check.
* The Rust register bank is a `HashMap<char, i64>` initialised on exactly
  `'a'..='z'`; register access outside that range panics via `.unwrap()` in
  `execute`.  We model the bank as a total function `Char → Int` (reads of
  never-written registers give 0, matching the initialised map); theorems
  whose scope could otherwise include panicking runs carry lowercase-register
  hypotheses.
* Rust `%` on `i64` truncates towards zero, which is `Int.tmod`.
* `fancy_regex` interprets `\d` as any Unicode decimal digit (`\p{Nd}`),
  while `str::parse::<i64>` accepts only ASCII digits; the embedding carries
  the Unicode 14.0 `Nd` table so both facts are modelled faithfully.
* The potentially nonterminating `execute` loop and the day18 driver loop are
  modelled with explicit fuel; a `Bool` (resp. `Option`) records whether the
  code genuinely returned, so fuel exhaustion is never mistaken for
  termination.
-/

/-- Argument of an instruction: a literal value or a register name
(`InstructionArgument` in the source). -/
inductive InstructionArgument where
  | Value (val : Int)
  | Register (reg : Char)
  deriving DecidableEq

/-- The instruction set of the sound computer (`Instruction` in the source). -/
inductive Instruction where
  | Snd (arg : InstructionArgument)
  | Set (reg : Char) (arg : InstructionArgument)
  | Add (reg : Char) (arg : InstructionArgument)
  | Mul (reg : Char) (arg : InstructionArgument)
  | Mod (reg : Char) (arg : InstructionArgument)
  | Rcv (reg : Char)
  | Jgz (arg1 : InstructionArgument) (arg2 : InstructionArgument)
  | Sub (reg : Char) (arg : InstructionArgument)
  | Jnz (arg1 : InstructionArgument) (arg2 : InstructionArgument)
  deriving DecidableEq

/-- State of the interpreter (the fields of `struct SoundComputer`).
`sounds_sent`/`sounds_received` model the two `VecDeque`s with front at the
head of the list. -/
structure SoundComputer where
  instructions : List Instruction
  registers : Char → Int
  duet_mode : Bool
  pc : Nat
  sounds_sent : List Int
  sounds_received : List Int
  awaiting_input : Bool
  halted : Bool
  total_sounds_sent : Nat
  last_sound_sent : Option Int
  mul_executions_count : Nat

namespace SoundComputer

/-- `SoundComputer::new`: fresh machine, all registers 0, pc 0, empty queues,
no flags set. -/
def new (instructions : List Instruction) (duet_mode : Bool) : SoundComputer where
  instructions := instructions
  registers := fun _ => 0
  duet_mode := duet_mode
  pc := 0
  sounds_sent := []
  sounds_received := []
  awaiting_input := false
  halted := false
  total_sounds_sent := 0
  last_sound_sent := none
  mul_executions_count := 0

/-- Write a register (the interior of `update_register` / `get_mut` writes used
by `execute`; the Rust code panics for registers outside `'a'..='z'`, which is
outside the modelled domain). -/
def writeReg (ρ : Char → Int) (r : Char) (v : Int) : Char → Int :=
  fun c => if c = r then v else ρ c

/-- `decode_instruction_argument`: a literal decodes to itself, a register
argument to the current register value. -/
def decode_instruction_argument (s : SoundComputer) (arg : InstructionArgument) : Int :=
  match arg with
  | .Value val => val
  | .Register reg => s.registers reg

/-- `conduct_pc_jump`: apply a signed jump offset to the program counter.
Returns the new state and `true` exactly when the jump would move the counter
left of the instruction space, in which case the machine is halted with the
counter unchanged. -/
def conduct_pc_jump (s : SoundComputer) (jmp : Int) : SoundComputer × Bool :=
  if jmp < 0 then
    if jmp.natAbs > s.pc then ({ s with halted := true }, true)
    else ({ s with pc := s.pc - jmp.natAbs }, false)
  else
    ({ s with pc := s.pc + jmp.natAbs }, false)

/-- Result of one iteration of the `execute` loop body: either control returns
to the caller of `execute` (`stop`) or the loop continues (`cont`). -/
inductive StepResult where
  | cont (s : SoundComputer)
  | stop (s : SoundComputer)

/-- The machine state carried by a `StepResult`. -/
def StepResult.state : StepResult → SoundComputer
  | .cont s => s
  | .stop s => s

/-- One iteration of the loop body of `SoundComputer::execute`: the
out-of-bounds check followed by the dispatch on the current instruction. -/
def executeStep (s : SoundComputer) : StepResult :=
  match s.instructions[s.pc]? with
  | none => .stop { s with halted := true }
  | some ins =>
    match ins with
    | .Snd arg =>
      let value := s.decode_instruction_argument arg
      .cont { s with
        sounds_sent := s.sounds_sent ++ [value]
        total_sounds_sent := s.total_sounds_sent + 1
        last_sound_sent := some value
        pc := s.pc + 1 }
    | .Set reg arg =>
      let value := s.decode_instruction_argument arg
      .cont { s with registers := writeReg s.registers reg value, pc := s.pc + 1 }
    | .Add reg arg =>
      let value := s.decode_instruction_argument arg
      .cont { s with
        registers := writeReg s.registers reg (s.registers reg + value), pc := s.pc + 1 }
    | .Mul reg arg =>
      let value := s.decode_instruction_argument arg
      .cont { s with
        registers := writeReg s.registers reg (s.registers reg * value)
        mul_executions_count := s.mul_executions_count + 1
        pc := s.pc + 1 }
    | .Mod reg arg =>
      let value := s.decode_instruction_argument arg
      .cont { s with
        registers := writeReg s.registers reg (Int.tmod (s.registers reg) value)
        pc := s.pc + 1 }
    | .Rcv reg =>
      let value := s.registers reg
      if !s.duet_mode && value ≠ 0 then
        .stop s
      else
        match s.sounds_received with
        | [] => .stop { s with awaiting_input := true }
        | sound_received :: rest =>
          .cont { s with
            registers := writeReg s.registers reg sound_received
            sounds_received := rest
            pc := s.pc + 1 }
    | .Jgz arg1 arg2 =>
      let check_value := s.decode_instruction_argument arg1
      let jmp := s.decode_instruction_argument arg2
      if check_value > 0 then
        match s.conduct_pc_jump jmp with
        | (t, true) => .stop t
        | (t, false) => .cont t
      else
        .cont { s with pc := s.pc + 1 }
    | .Sub reg arg =>
      let value := s.decode_instruction_argument arg
      .cont { s with
        registers := writeReg s.registers reg (s.registers reg - value), pc := s.pc + 1 }
    | .Jnz arg1 arg2 =>
      let check_value := s.decode_instruction_argument arg1
      let jmp := s.decode_instruction_argument arg2
      if check_value ≠ 0 then
        match s.conduct_pc_jump jmp with
        | (t, true) => .stop t
        | (t, false) => .cont t
      else
        .cont { s with pc := s.pc + 1 }

/-- The loop of `SoundComputer::execute`, with explicit fuel.  The `Bool` is
`true` exactly when the loop genuinely returned control (rather than the fuel
running out on a still-running machine). -/
def execute_loop : Nat → SoundComputer → SoundComputer × Bool
  | 0, s => (s, false)
  | Nat.succ n, s =>
    match executeStep s with
    | .stop t => (t, true)
    | .cont t => execute_loop n t

/-- `SoundComputer::execute`: the guard on `halted`/`awaiting_input` followed
by the instruction loop. -/
def execute (fuel : Nat) (s : SoundComputer) : SoundComputer × Bool :=
  if s.halted || s.awaiting_input then (s, true) else execute_loop fuel s

/-- `SoundComputer::take_sent_sounds`: returns the outbound queue and clears
it. -/
def take_sent_sounds (s : SoundComputer) : List Int × SoundComputer :=
  (s.sounds_sent, { s with sounds_sent := [] })

/-- `SoundComputer::receive_sounds`: appends the batch to the inbound queue
and clears `awaiting_input` if the queue is then non-empty. -/
def receive_sounds (s : SoundComputer) (sounds : List Int) : SoundComputer :=
  if (s.sounds_received ++ sounds).isEmpty then
    { s with sounds_received := s.sounds_received ++ sounds }
  else
    { s with sounds_received := s.sounds_received ++ sounds, awaiting_input := false }

/-- `SoundComputer::update_register`: writes the register if it exists
(`'a'..='z'`), otherwise leaves the state unchanged (the Rust version
additionally reports `RegisterWriteError`). -/
def update_register (s : SoundComputer) (register : Char) (value : Int) : SoundComputer :=
  if 97 ≤ register.toNat ∧ register.toNat ≤ 122 then
    { s with registers := writeReg s.registers register value }
  else s

/-- `SoundComputer::get_last_sent_sound`. -/
def get_last_sent_sound (s : SoundComputer) : Option Int :=
  s.last_sound_sent

/-- `SoundComputer::is_awaiting_input`. -/
def is_awaiting_input (s : SoundComputer) : Bool :=
  s.awaiting_input

/-- `SoundComputer::is_halted`. -/
def is_halted (s : SoundComputer) : Bool :=
  s.halted

/-- `SoundComputer::get_total_sounds_sent`. -/
def get_total_sounds_sent (s : SoundComputer) : Nat :=
  s.total_sounds_sent

/-- `SoundComputer::get_mul_executions_count`. -/
def get_mul_executions_count (s : SoundComputer) : Nat :=
  s.mul_executions_count

end SoundComputer

/-- Whether a step result returns control to the caller of `execute`. -/
def SoundComputer.StepResult.isStop : SoundComputer.StepResult → Bool
  | .stop _ => true
  | .cont _ => false

/-- C9: on a machine whose `halted` flag is set, `execute` is a no-op — the
guard returns immediately, leaving every field of the state unchanged. -/
theorem execute_halted_noop (fuel : Nat) (s : SoundComputer) (h : s.halted = true) :
    SoundComputer.execute fuel s = (s, true) := by
  simp [SoundComputer.execute, h]

/-- Witness for `execute_halted_noop` at a concrete halted machine. -/
theorem execute_halted_noop_witness :
    ({ SoundComputer.new [.Snd (.Value 1)] false with halted := true } : SoundComputer).halted
        = true ∧
    SoundComputer.execute 5 { SoundComputer.new [.Snd (.Value 1)] false with halted := true }
      = ({ SoundComputer.new [.Snd (.Value 1)] false with halted := true }, true) :=
  ⟨rfl, execute_halted_noop 5 _ rfl⟩

/-- C2 (amended): in standalone mode, a `Rcv` hit with a nonzero target
register stops execution with the whole state unchanged (no `halted`, no
`awaiting_input`, last-sent value untouched); and the concrete program
`set a 1; add a 2; rcv a` stops at the `rcv` with register `a` = 3 and both
flags clear.  (The original claim's further assertion that a standalone
machine never transitions to `awaiting_input` is refuted by
`standalone_rcv_zero_awaits_cex`: with a zero register the code falls through
to the queue-based branch.) -/
theorem standalone_rcv_nonzero_stops (f : Nat) (s : SoundComputer) (r : Char)
    (hf : 1 ≤ f) (hd : s.duet_mode = false) (hh : s.halted = false)
    (ha : s.awaiting_input = false)
    (hi : s.instructions[s.pc]? = some (.Rcv r)) (hv : s.registers r ≠ 0) :
    SoundComputer.execute f s = (s, true) ∧
    ((SoundComputer.execute 4
        (SoundComputer.new [.Set 'a' (.Value 1), .Add 'a' (.Value 2), .Rcv 'a'] false)).2 = true ∧
      (SoundComputer.execute 4
        (SoundComputer.new [.Set 'a' (.Value 1), .Add 'a' (.Value 2), .Rcv 'a'] false)).1.awaiting_input
          = false ∧
      (SoundComputer.execute 4
        (SoundComputer.new [.Set 'a' (.Value 1), .Add 'a' (.Value 2), .Rcv 'a'] false)).1.halted
          = false ∧
      (SoundComputer.execute 4
        (SoundComputer.new [.Set 'a' (.Value 1), .Add 'a' (.Value 2), .Rcv 'a'] false)).1.pc = 2 ∧
      (SoundComputer.execute 4
        (SoundComputer.new [.Set 'a' (.Value 1), .Add 'a' (.Value 2), .Rcv 'a'] false)).1.registers 'a'
          = 3 ∧
      (SoundComputer.execute 4
        (SoundComputer.new [.Set 'a' (.Value 1), .Add 'a' (.Value 2), .Rcv 'a'] false)).1.last_sound_sent
          = none) := by
  constructor
  · obtain ⟨f', rfl⟩ : ∃ f', f = f' + 1 := ⟨f - 1, by omega⟩
    simp [SoundComputer.execute, hh, ha, SoundComputer.execute_loop,
      SoundComputer.executeStep, hi, hd, hv]
  · exact ⟨by decide, by decide, by decide, by decide, by decide, by decide⟩

/-- Witness for `standalone_rcv_nonzero_stops`: the machine of the concrete
example, stopped right at its `rcv` instruction with register `a` = 3. -/
theorem standalone_rcv_nonzero_stops_witness :
    SoundComputer.execute 1
        { SoundComputer.new [.Rcv 'b'] false with registers := fun c => if c = 'b' then 3 else 0 }
      = ({ SoundComputer.new [.Rcv 'b'] false with
            registers := fun c => if c = 'b' then 3 else 0 }, true) :=
  (standalone_rcv_nonzero_stops 1
    { SoundComputer.new [.Rcv 'b'] false with registers := fun c => if c = 'b' then 3 else 0 }
    'b' (by decide) rfl rfl rfl (by decide) (by decide)).1

/-- Counterexample to C2 as stated: a fresh standalone machine whose program is
just `rcv a` executes the `Rcv` with register `a` = 0 and an empty inbound
queue, and the code's else-branch marks it `awaiting_input` — so a standalone
machine does transition to `awaiting_input`, and stopping at a `Rcv` is not
decided solely by the register's value being nonzero. -/
theorem standalone_rcv_zero_awaits_cex :
    (SoundComputer.new [.Rcv 'a'] false).duet_mode = false ∧
    (SoundComputer.new [.Rcv 'a'] false).awaiting_input = false ∧
    (SoundComputer.execute 1 (SoundComputer.new [.Rcv 'a'] false)).2 = true ∧
    (SoundComputer.execute 1 (SoundComputer.new [.Rcv 'a'] false)).1.awaiting_input = true := by
  refine ⟨rfl, rfl, by decide, by decide⟩

/-- C5 (amended): a `jgz` whose first operand resolves to a strictly positive
value and whose second operand resolves to offset `k` moves the program
counter by exactly `k` (not `k + 1`) whenever the destination `pc + k` is not
left of the instruction space; if `pc + k < 0` the machine instead halts with
the counter unchanged (see `jgz_negative_overshoot_cex` and claim C6); a
non-positive first operand advances the counter by the default `+1`. -/
theorem jgz_pc_move (s : SoundComputer) (a1 a2 : InstructionArgument)
    (hi : s.instructions[s.pc]? = some (.Jgz a1 a2)) :
    (0 < s.decode_instruction_argument a1 →
      0 ≤ (s.pc : Int) + s.decode_instruction_argument a2 →
      SoundComputer.executeStep s =
        .cont { s with pc := ((s.pc : Int) + s.decode_instruction_argument a2).toNat }) ∧
    (0 < s.decode_instruction_argument a1 →
      (s.pc : Int) + s.decode_instruction_argument a2 < 0 →
      SoundComputer.executeStep s = .stop { s with halted := true }) ∧
    (s.decode_instruction_argument a1 ≤ 0 →
      SoundComputer.executeStep s = .cont { s with pc := s.pc + 1 }) := by
  refine ⟨fun hpos hdest => ?_, fun hpos hdest => ?_, fun hnp => ?_⟩
  · unfold SoundComputer.executeStep
    rw [hi]
    simp only [hpos, if_pos]
    unfold SoundComputer.conduct_pc_jump
    by_cases hneg : s.decode_instruction_argument a2 < 0
    · have hle : ¬((s.decode_instruction_argument a2).natAbs > s.pc) := by omega
      simp only [hneg, if_pos, hle, if_neg]
      have hpc : s.pc - (s.decode_instruction_argument a2).natAbs
          = ((s.pc : Int) + s.decode_instruction_argument a2).toNat := by omega
      simp [hpc]
    · simp only [hneg, if_neg]
      have hpc : s.pc + (s.decode_instruction_argument a2).natAbs
          = ((s.pc : Int) + s.decode_instruction_argument a2).toNat := by omega
      simp [hpc]
  · unfold SoundComputer.executeStep
    rw [hi]
    simp only [hpos, if_pos]
    unfold SoundComputer.conduct_pc_jump
    have hneg : s.decode_instruction_argument a2 < 0 := by omega
    have hgt : (s.decode_instruction_argument a2).natAbs > s.pc := by omega
    simp [hneg, hgt]
  · unfold SoundComputer.executeStep
    rw [hi]
    have : ¬(0 < s.decode_instruction_argument a1) := by omega
    simp [this]

/-- Witness for `jgz_pc_move` at concrete machines: a taken forward jump by 2,
a taken backward overshoot that halts, and a non-taken jump advancing by 1. -/
theorem jgz_pc_move_witness :
    (SoundComputer.executeStep
        (SoundComputer.new [.Jgz (.Value 1) (.Value 2)] false)).state.pc = 2 ∧
    SoundComputer.executeStep (SoundComputer.new [.Jgz (.Value 1) (.Value (-3))] false)
      = .stop { SoundComputer.new [.Jgz (.Value 1) (.Value (-3))] false with halted := true } ∧
    (SoundComputer.executeStep
        (SoundComputer.new [.Jgz (.Value 0) (.Value 2)] false)).state.pc = 1 := by
  refine ⟨?_, ?_, ?_⟩
  · have h := (jgz_pc_move (SoundComputer.new [.Jgz (.Value 1) (.Value 2)] false)
      (.Value 1) (.Value 2) (by decide)).1 (by decide) (by decide)
    rw [h]
    rfl
  · exact (jgz_pc_move (SoundComputer.new [.Jgz (.Value 1) (.Value (-3))] false)
      (.Value 1) (.Value (-3)) (by decide)).2.1 (by decide) (by decide)
  · have h := (jgz_pc_move (SoundComputer.new [.Jgz (.Value 0) (.Value 2)] false)
      (.Value 0) (.Value 2) (by decide)).2.2 (by decide)
    rw [h]
    rfl

/-- Counterexample to C5 as stated: `jgz 1 -1` at program counter 0 has a
strictly positive first operand and offset `k = -1`, but the code does not
move the counter by `k` (which would be below zero): it halts the machine
with the counter unchanged at 0. -/
theorem jgz_negative_overshoot_cex :
    (SoundComputer.executeStep
        (SoundComputer.new [.Jgz (.Value 1) (.Value (-1))] false)).state.halted = true ∧
    (SoundComputer.executeStep
        (SoundComputer.new [.Jgz (.Value 1) (.Value (-1))] false)).state.pc = 0 ∧
    (SoundComputer.executeStep
        (SoundComputer.new [.Jgz (.Value 1) (.Value (-1))] false)).isStop = true := by
  refine ⟨by decide, by decide, by decide⟩

/-- C6: a taken jump (`jgz` or `jnz`) whose resolved offset is negative halts
the machine (and returns control) when the offset's magnitude exceeds the
current program counter, and lands exactly on instruction 0 and continues when
the magnitude equals the counter. -/
theorem jump_left_of_program (s : SoundComputer) (a1 a2 : InstructionArgument) (k : Int)
    (hi : s.instructions[s.pc]? = some (.Jgz a1 a2) ∧ 0 < s.decode_instruction_argument a1
      ∨ s.instructions[s.pc]? = some (.Jnz a1 a2) ∧ s.decode_instruction_argument a1 ≠ 0)
    (hk : s.decode_instruction_argument a2 = k) (hneg : k < 0) :
    (k.natAbs > s.pc → SoundComputer.executeStep s = .stop { s with halted := true }) ∧
    (k.natAbs = s.pc → SoundComputer.executeStep s = .cont { s with pc := 0 }) := by
  constructor
  · intro hover
    rcases hi with ⟨hins, hpos⟩ | ⟨hins, hnz⟩ <;>
    · unfold SoundComputer.executeStep
      rw [hins]
      first
      | simp only [hpos, if_pos]
      | simp only [hnz, ne_eq, not_false_eq_true, if_pos]
      unfold SoundComputer.conduct_pc_jump
      rw [hk]
      simp [hneg, hover]
  · intro heq
    rcases hi with ⟨hins, hpos⟩ | ⟨hins, hnz⟩ <;>
    · unfold SoundComputer.executeStep
      rw [hins]
      first
      | simp only [hpos, if_pos]
      | simp only [hnz, ne_eq, not_false_eq_true, if_pos]
      unfold SoundComputer.conduct_pc_jump
      rw [hk]
      have hngt : ¬(k.natAbs > s.pc) := by omega
      have hz : s.pc - k.natAbs = 0 := by omega
      simp [hneg, hngt, hz]

/-- Witness for `jump_left_of_program`: a `jnz` overshooting backwards halts,
and a `jgz` jumping back by exactly the current counter lands on 0. -/
theorem jump_left_of_program_witness :
    SoundComputer.executeStep (SoundComputer.new [.Jnz (.Value 1) (.Value (-5))] false)
      = .stop { SoundComputer.new [.Jnz (.Value 1) (.Value (-5))] false with halted := true } ∧
    SoundComputer.executeStep
        { SoundComputer.new
            [.Set 'a' (.Value 0), .Set 'a' (.Value 0), .Jgz (.Value 1) (.Value (-2))] false
          with pc := 2 }
      = .cont { SoundComputer.new
            [.Set 'a' (.Value 0), .Set 'a' (.Value 0), .Jgz (.Value 1) (.Value (-2))] false
          with pc := 0 } := by
  constructor
  · exact (jump_left_of_program (SoundComputer.new [.Jnz (.Value 1) (.Value (-5))] false)
      (.Value 1) (.Value (-5)) (-5) (Or.inr ⟨by decide, by decide⟩) rfl (by decide)).1
      (by decide)
  · have h := (jump_left_of_program
      { SoundComputer.new
          [.Set 'a' (.Value 0), .Set 'a' (.Value 0), .Jgz (.Value 1) (.Value (-2))] false
        with pc := 2 }
      (.Value 1) (.Value (-2)) (-2) (Or.inl ⟨by decide, by decide⟩) rfl (by decide)).2
      (by decide)
    simpa using h

/-- C4: in paired (duet) mode, a `Rcv` with an empty inbound queue sets
`awaiting_input` and leaves the program counter (and everything else)
unchanged; `receive_sounds` with a non-empty batch appends it to the inbound
queue and clears `awaiting_input`; and on the retried `Rcv` the next loop step
pops the oldest queued value into the target register and advances the
counter by 1. -/
theorem rcv_duet_queue_semantics (f : Nat) (s : SoundComputer) (r : Char)
    (hf : 1 ≤ f) (hd : s.duet_mode = true) (hh : s.halted = false)
    (ha : s.awaiting_input = false)
    (hi : s.instructions[s.pc]? = some (.Rcv r)) :
    (s.sounds_received = [] →
      SoundComputer.execute f s = ({ s with awaiting_input := true }, true)) ∧
    (∀ (t : SoundComputer) (vs : List Int), vs ≠ [] →
      SoundComputer.receive_sounds t vs =
        { t with sounds_received := t.sounds_received ++ vs, awaiting_input := false }) ∧
    (∀ (v : Int) (rest : List Int), s.sounds_received = v :: rest →
      SoundComputer.executeStep s =
        .cont { s with registers := SoundComputer.writeReg s.registers r v,
                       sounds_received := rest, pc := s.pc + 1 }) := by
  refine ⟨fun hq => ?_, fun t vs hvs => ?_, fun v rest hq => ?_⟩
  · obtain ⟨f', rfl⟩ : ∃ f', f = f' + 1 := ⟨f - 1, by omega⟩
    simp [SoundComputer.execute, hh, ha, SoundComputer.execute_loop,
      SoundComputer.executeStep, hi, hd, hq]
  · simp [SoundComputer.receive_sounds, List.isEmpty_iff, hvs]
  · simp [SoundComputer.executeStep, hi, hd, hq]

/-- Witness for `rcv_duet_queue_semantics` at concrete duet machines: an empty
queue suspends, delivering `[7]` fills the queue and clears the flag, and a
queued `[5]` is popped into the register with the counter advancing. -/
theorem rcv_duet_queue_semantics_witness :
    SoundComputer.execute 1 (SoundComputer.new [.Rcv 'a'] true)
      = ({ SoundComputer.new [.Rcv 'a'] true with awaiting_input := true }, true) ∧
    SoundComputer.receive_sounds (SoundComputer.new [.Rcv 'a'] true) [7]
      = { SoundComputer.new [.Rcv 'a'] true with
            sounds_received := [7], awaiting_input := false } ∧
    SoundComputer.executeStep
        { SoundComputer.new [.Rcv 'a'] true with sounds_received := [5] }
      = .cont { SoundComputer.new [.Rcv 'a'] true with
            registers := SoundComputer.writeReg
              (SoundComputer.new [.Rcv 'a'] true).registers 'a' 5,
            sounds_received := [], pc := 1 } := by
  have h1 := rcv_duet_queue_semantics 1 (SoundComputer.new [.Rcv 'a'] true) 'a'
    (by decide) rfl rfl rfl (by decide)
  have h2 := rcv_duet_queue_semantics 1
    { SoundComputer.new [.Rcv 'a'] true with sounds_received := [5] } 'a'
    (by decide) rfl rfl rfl (by decide)
  refine ⟨h1.1 rfl, ?_, ?_⟩
  · have := h1.2.1 (SoundComputer.new [.Rcv 'a'] true) [7] (by decide)
    simpa using this
  · have := h2.2.2 5 [] rfl
    simpa using this

/-- The public operations through which external code drives a
`SoundComputer` (`execute`, `receive_sounds`, `take_sent_sounds`,
`update_register`). -/
inductive PubOp where
  | execOp (fuel : Nat)
  | recvOp (sounds : List Int)
  | takeOp
  | updateOp (register : Char) (value : Int)

/-- Whether a public operation is an `execute` call. -/
def PubOp.isExec : PubOp → Bool
  | .execOp _ => true
  | _ => false

/-- Apply a public operation to a machine state. -/
def applyOp : PubOp → SoundComputer → SoundComputer
  | .execOp fuel, s => (SoundComputer.execute fuel s).1
  | .recvOp sounds, s => SoundComputer.receive_sounds s sounds
  | .takeOp, s => (SoundComputer.take_sent_sounds s).2
  | .updateOp r v, s => SoundComputer.update_register s r v

/-- Apply a sequence of public operations in order. -/
def applyOps (ops : List PubOp) (s : SoundComputer) : SoundComputer :=
  ops.foldl (fun t op => applyOp op t) s

/-- Machine states reachable from a fresh machine via the public operations. -/
inductive Reachable (prog : List Instruction) (d : Bool) : SoundComputer → Prop
  | init : Reachable prog d (SoundComputer.new prog d)
  | step (op : PubOp) {s : SoundComputer} :
      Reachable prog d s → Reachable prog d (applyOp op s)

/-- Whether the current instruction of a machine is a `Mul`. -/
def isMulAt (s : SoundComputer) : Bool :=
  match s.instructions[s.pc]? with
  | some (.Mul _ _) => true
  | _ => false

/-- Flag shape produced by one `execute` loop iteration started on a running
machine: a continuing state has both flags clear, a returning state never has
both set. -/
def flagsOk : SoundComputer.StepResult → Bool
  | .cont t => !t.halted && !t.awaiting_input
  | .stop t => !(t.halted && t.awaiting_input)

lemma conduct_pc_jump_flags (s : SoundComputer) (jmp : Int) (t : SoundComputer)
    (b : Bool) (h : SoundComputer.conduct_pc_jump s jmp = (t, b)) :
    t.awaiting_input = s.awaiting_input ∧ (b = true → t.halted = true) ∧
      (b = false → t.halted = s.halted) := by
  unfold SoundComputer.conduct_pc_jump at h
  by_cases h1 : jmp < 0
  · by_cases h2 : jmp.natAbs > s.pc
    · rw [if_pos h1, if_pos h2] at h
      obtain ⟨rfl, rfl⟩ := Prod.mk.inj h
      simp
    · rw [if_pos h1, if_neg h2] at h
      obtain ⟨rfl, rfl⟩ := Prod.mk.inj h
      simp
  · rw [if_neg h1] at h
    obtain ⟨rfl, rfl⟩ := Prod.mk.inj h
    simp

lemma conduct_pc_jump_counters (s : SoundComputer) (jmp : Int) (t : SoundComputer)
    (b : Bool) (h : SoundComputer.conduct_pc_jump s jmp = (t, b)) :
    t.mul_executions_count = s.mul_executions_count := by
  unfold SoundComputer.conduct_pc_jump at h
  by_cases h1 : jmp < 0
  · by_cases h2 : jmp.natAbs > s.pc
    · rw [if_pos h1, if_pos h2] at h
      obtain ⟨rfl, rfl⟩ := Prod.mk.inj h
      simp
    · rw [if_pos h1, if_neg h2] at h
      obtain ⟨rfl, rfl⟩ := Prod.mk.inj h
      simp
  · rw [if_neg h1] at h
    obtain ⟨rfl, rfl⟩ := Prod.mk.inj h
    simp

lemma executeStep_flagsOk (s : SoundComputer) (hh : s.halted = false)
    (ha : s.awaiting_input = false) :
    flagsOk (SoundComputer.executeStep s) = true := by
  unfold SoundComputer.executeStep
  cases h : s.instructions[s.pc]? with
  | none => simp [flagsOk, ha]
  | some ins =>
    cases ins with
    | Snd arg => simp [flagsOk, hh, ha]
    | Set reg arg => simp [flagsOk, hh, ha]
    | Add reg arg => simp [flagsOk, hh, ha]
    | Mul reg arg => simp [flagsOk, hh, ha]
    | Mod reg arg => simp [flagsOk, hh, ha]
    | Sub reg arg => simp [flagsOk, hh, ha]
    | Rcv reg =>
      by_cases hc : s.duet_mode = false ∧ ¬s.registers reg = 0
      · simp [flagsOk, hc, hh, ha]
      · cases hq : s.sounds_received <;> simp [flagsOk, hc, hq, hh, ha]
    | Jgz a1 a2 =>
      by_cases hc : s.decode_instruction_argument a1 > 0
      · rcases h2 : s.conduct_pc_jump (s.decode_instruction_argument a2) with ⟨t, b⟩
        obtain ⟨hfa, hft, hff⟩ :=
          conduct_pc_jump_flags s (s.decode_instruction_argument a2) t b h2
        cases b
        · simp [flagsOk, hc, h2, hff rfl, hfa, hh, ha]
        · simp [flagsOk, hc, h2, hfa, ha]
      · simp [flagsOk, hc, hh, ha]
    | Jnz a1 a2 =>
      by_cases hc : s.decode_instruction_argument a1 ≠ 0
      · rcases h2 : s.conduct_pc_jump (s.decode_instruction_argument a2) with ⟨t, b⟩
        obtain ⟨hfa, hft, hff⟩ :=
          conduct_pc_jump_flags s (s.decode_instruction_argument a2) t b h2
        cases b
        · simp [flagsOk, hc, h2, hff rfl, hfa, hh, ha]
        · simp [flagsOk, hc, h2, hfa, ha]
      · simp [flagsOk, hc, hh, ha]

lemma execute_loop_flagsOk (f : Nat) :
    ∀ s : SoundComputer, s.halted = false → s.awaiting_input = false →
      ¬((SoundComputer.execute_loop f s).1.halted = true ∧
        (SoundComputer.execute_loop f s).1.awaiting_input = true) := by
  induction f with
  | zero =>
    intro s hh ha h
    rw [SoundComputer.execute_loop] at h
    rw [hh] at h
    simp at h
  | succ n ih =>
    intro s hh ha
    have hok := executeStep_flagsOk s hh ha
    cases hstep : SoundComputer.executeStep s with
    | stop t =>
      rw [hstep] at hok
      simp only [flagsOk, Bool.not_eq_true', Bool.and_eq_false_iff] at hok
      rw [SoundComputer.execute_loop, hstep]
      simp only
      intro hc
      rcases hok with hok | hok
      · rw [hok] at hc; simp at hc
      · rw [hok] at hc; simp at hc
    | cont t =>
      rw [hstep] at hok
      simp only [flagsOk, Bool.and_eq_true, Bool.not_eq_true'] at hok
      rw [SoundComputer.execute_loop, hstep]
      exact ih t hok.1 hok.2

lemma applyOp_halted_mono (op : PubOp) (s : SoundComputer) (h : s.halted = true) :
    (applyOp op s).halted = true := by
  cases op with
  | execOp f => simp [applyOp, SoundComputer.execute, h]
  | recvOp vs =>
    simp only [applyOp, SoundComputer.receive_sounds]
    split <;> simpa using h
  | takeOp => simpa [applyOp, SoundComputer.take_sent_sounds] using h
  | updateOp r v =>
    simp only [applyOp, SoundComputer.update_register]
    split <;> simpa using h

lemma applyOps_halted_mono (ops : List PubOp) :
    ∀ s : SoundComputer, s.halted = true → (applyOps ops s).halted = true := by
  induction ops with
  | nil => intro s h; exact h
  | cons op rest ih =>
    intro s h
    exact ih (applyOp op s) (applyOp_halted_mono op s h)

lemma applyOp_inv (op : PubOp) (s : SoundComputer)
    (h : ¬(s.halted = true ∧ s.awaiting_input = true)) :
    ¬((applyOp op s).halted = true ∧ (applyOp op s).awaiting_input = true) := by
  cases op with
  | execOp f =>
    by_cases hh : s.halted = true
    · simpa [applyOp, SoundComputer.execute, hh] using h
    · by_cases ha : s.awaiting_input = true
      · simpa [applyOp, SoundComputer.execute, ha] using h
      · simp only [Bool.not_eq_true] at hh ha
        simpa [applyOp, SoundComputer.execute, hh, ha] using
          execute_loop_flagsOk f s hh ha
  | recvOp vs =>
    simp only [applyOp, SoundComputer.receive_sounds]
    split
    · simpa using h
    · simp
  | takeOp => simpa [applyOp, SoundComputer.take_sent_sounds] using h
  | updateOp r v =>
    simp only [applyOp, SoundComputer.update_register]
    split <;> simpa using h

/-- C7: for every machine state reachable from a fresh machine through the
public operations, `halted` and `awaiting_input` are never both set, and a
set `halted` flag survives every later sequence of public operations. -/
theorem halted_awaiting_exclusive (prog : List Instruction) (d : Bool)
    (s : SoundComputer) (ops : List PubOp) (hs : Reachable prog d s) :
    ¬(s.halted = true ∧ s.awaiting_input = true) ∧
    (s.halted = true → (applyOps ops s).halted = true) := by
  constructor
  · induction hs with
    | init => simp [SoundComputer.new]
    | step op hr ih => exact applyOp_inv op _ ih
  · exact fun h => applyOps_halted_mono ops s h

/-- Witness for `halted_awaiting_exclusive` at a fresh machine after one
`execute` call that halts it, followed by further operations. -/
theorem halted_awaiting_exclusive_witness :
    ¬((applyOp (.execOp 1) (SoundComputer.new [] false)).halted = true ∧
      (applyOp (.execOp 1) (SoundComputer.new [] false)).awaiting_input = true) ∧
    ((applyOp (.execOp 1) (SoundComputer.new [] false)).halted = true →
      (applyOps [.takeOp, .recvOp [3], .execOp 2]
        (applyOp (.execOp 1) (SoundComputer.new [] false))).halted = true) :=
  halted_awaiting_exclusive [] false _ [.takeOp, .recvOp [3], .execOp 2]
    (Reachable.step (.execOp 1) Reachable.init)

/-- C10: the `mul` execution counter is 0 on a fresh machine, goes up by
exactly 1 when the loop step executes a `Mul` instruction, is unchanged by a
step at any other instruction, and is untouched by the non-`execute` public
operations. -/
theorem mul_count_exact (prog : List Instruction) (d : Bool) (s : SoundComputer)
    (op : PubOp) :
    (SoundComputer.new prog d).get_mul_executions_count = 0 ∧
    ((SoundComputer.executeStep s).state.mul_executions_count
      = if isMulAt s then s.mul_executions_count + 1 else s.mul_executions_count) ∧
    (op.isExec = false →
      (applyOp op s).mul_executions_count = s.mul_executions_count) := by
  refine ⟨rfl, ?_, ?_⟩
  · unfold SoundComputer.executeStep isMulAt
    cases h : s.instructions[s.pc]? with
    | none => simp [SoundComputer.StepResult.state]
    | some ins =>
      cases ins with
      | Snd arg => simp [SoundComputer.StepResult.state]
      | Set reg arg => simp [SoundComputer.StepResult.state]
      | Add reg arg => simp [SoundComputer.StepResult.state]
      | Mul reg arg => simp [SoundComputer.StepResult.state]
      | Mod reg arg => simp [SoundComputer.StepResult.state]
      | Sub reg arg => simp [SoundComputer.StepResult.state]
      | Rcv reg =>
        by_cases hc : s.duet_mode = false ∧ ¬s.registers reg = 0
        · simp [SoundComputer.StepResult.state, hc]
        · cases hq : s.sounds_received <;> simp [SoundComputer.StepResult.state, hc, hq]
      | Jgz a1 a2 =>
        by_cases hc : s.decode_instruction_argument a1 > 0
        · rcases h2 : s.conduct_pc_jump (s.decode_instruction_argument a2) with ⟨t, b⟩
          have hcnt := conduct_pc_jump_counters s (s.decode_instruction_argument a2) t b h2
          cases b <;> simp [SoundComputer.StepResult.state, hc, h2, hcnt]
        · simp [SoundComputer.StepResult.state, hc]
      | Jnz a1 a2 =>
        by_cases hc : s.decode_instruction_argument a1 ≠ 0
        · rcases h2 : s.conduct_pc_jump (s.decode_instruction_argument a2) with ⟨t, b⟩
          have hcnt := conduct_pc_jump_counters s (s.decode_instruction_argument a2) t b h2
          cases b <;> simp [SoundComputer.StepResult.state, hc, h2, hcnt]
        · simp [SoundComputer.StepResult.state, hc]
  · intro hop
    cases op with
    | execOp f => simp [PubOp.isExec] at hop
    | recvOp vs =>
      simp only [applyOp, SoundComputer.receive_sounds]
      split <;> simp
    | takeOp => simp [applyOp, SoundComputer.take_sent_sounds]
    | updateOp r v =>
      simp only [applyOp, SoundComputer.update_register]
      split <;> simp

/-- Witness for `mul_count_exact`: a machine whose first instruction is a
`mul` goes from counter 0 to 1 in one loop step, and `take_sent_sounds`
leaves the counter alone. -/
theorem mul_count_exact_witness :
    (SoundComputer.new [.Mul 'a' (.Value 3)] false).get_mul_executions_count = 0 ∧
    (SoundComputer.executeStep
        (SoundComputer.new [.Mul 'a' (.Value 3)] false)).state.mul_executions_count = 1 ∧
    (applyOp .takeOp
        (SoundComputer.new [.Mul 'a' (.Value 3)] false)).mul_executions_count = 0 := by
  have h := mul_count_exact [.Mul 'a' (.Value 3)] false
    (SoundComputer.new [.Mul 'a' (.Value 3)] false) .takeOp
  refine ⟨h.1, ?_, h.2.2 rfl⟩
  rw [h.2.1]
  decide

/-- Whether an instruction argument only touches registers that exist in the
machine's register bank (`'a'..='z'`), so that the Rust code cannot panic on
it. -/
def argIsSafe : InstructionArgument → Bool
  | .Value _ => true
  | .Register c => decide (97 ≤ c.toNat) && decide (c.toNat ≤ 122)

/-- Whether an instruction is one of `set`/`add`/`sub`/`mul`/`mod` targeting
the single register `r` (with panic-free operands). -/
def simpleOn (r : Char) : Instruction → Bool
  | .Set reg arg => decide (reg = r) && argIsSafe arg
  | .Add reg arg => decide (reg = r) && argIsSafe arg
  | .Sub reg arg => decide (reg = r) && argIsSafe arg
  | .Mul reg arg => decide (reg = r) && argIsSafe arg
  | .Mod reg arg => decide (reg = r) && argIsSafe arg
  | _ => false

/-- Resolution of an operand in the left-to-right fold semantics: a literal is
itself, the folded register is the accumulator, any other register is 0. -/
def argFoldValue (r : Char) (acc : Int) : InstructionArgument → Int
  | .Value v => v
  | .Register c => if c = r then acc else 0

/-- One step of the left-to-right fold over a single-register program. -/
def foldStep (r : Char) (acc : Int) : Instruction → Int
  | .Set _ arg => argFoldValue r acc arg
  | .Add _ arg => acc + argFoldValue r acc arg
  | .Sub _ arg => acc - argFoldValue r acc arg
  | .Mul _ arg => acc * argFoldValue r acc arg
  | .Mod _ arg => Int.tmod acc (argFoldValue r acc arg)
  | _ => acc

lemma decode_simple (s : SoundComputer) (r : Char) (arg : InstructionArgument)
    (hreg : ∀ c, c ≠ r → s.registers c = 0) :
    s.decode_instruction_argument arg = argFoldValue r (s.registers r) arg := by
  cases arg with
  | Value v => rfl
  | Register c =>
    by_cases hc : c = r
    · subst hc
      simp [SoundComputer.decode_instruction_argument, argFoldValue]
    · simp [SoundComputer.decode_instruction_argument, argFoldValue, hc, hreg c hc]

lemma getElem_of_drop {α : Type} {l : List α} {n : Nat} {x : α} {xs : List α}
    (h : l.drop n = x :: xs) : l[n]? = some x := by
  have h0 : (l.drop n)[0]? = l[n]? := by simp
  rw [h] at h0
  simpa using h0.symm

lemma drop_succ_of_drop {α : Type} {l : List α} {n : Nat} {x : α} {xs : List α}
    (h : l.drop n = x :: xs) : l.drop (n + 1) = xs := by
  have h2 : (l.drop n).drop 1 = l.drop (n + 1) := by
    rw [List.drop_drop, Nat.add_comm]
  rw [h] at h2
  simpa using h2.symm

lemma executeStep_simple (s : SoundComputer) (r : Char) (i : Instruction)
    (hpc : s.instructions[s.pc]? = some i) (hsi : simpleOn r i = true)
    (hreg : ∀ c, c ≠ r → s.registers c = 0) :
    ∃ t, SoundComputer.executeStep s = .cont t ∧
      t.instructions = s.instructions ∧ t.pc = s.pc + 1 ∧
      t.halted = s.halted ∧ t.awaiting_input = s.awaiting_input ∧
      t.registers = SoundComputer.writeReg s.registers r
        (foldStep r (s.registers r) i) := by
  cases i with
  | Set reg arg =>
    obtain ⟨hr, -⟩ : reg = r ∧ argIsSafe arg = true := by
      simpa [simpleOn, Bool.and_eq_true, decide_eq_true_eq] using hsi
    subst hr
    refine ⟨{ s with registers := SoundComputer.writeReg s.registers reg (s.decode_instruction_argument arg), pc := s.pc + 1 }, by simp [SoundComputer.executeStep, hpc], rfl, rfl, rfl, rfl, ?_⟩
    simp [foldStep, decode_simple s reg arg hreg]
  | Add reg arg =>
    obtain ⟨hr, -⟩ : reg = r ∧ argIsSafe arg = true := by
      simpa [simpleOn, Bool.and_eq_true, decide_eq_true_eq] using hsi
    subst hr
    refine ⟨{ s with registers := SoundComputer.writeReg s.registers reg (s.registers reg + s.decode_instruction_argument arg), pc := s.pc + 1 }, by simp [SoundComputer.executeStep, hpc], rfl, rfl, rfl, rfl, ?_⟩
    simp [foldStep, decode_simple s reg arg hreg]
  | Sub reg arg =>
    obtain ⟨hr, -⟩ : reg = r ∧ argIsSafe arg = true := by
      simpa [simpleOn, Bool.and_eq_true, decide_eq_true_eq] using hsi
    subst hr
    refine ⟨{ s with registers := SoundComputer.writeReg s.registers reg (s.registers reg - s.decode_instruction_argument arg), pc := s.pc + 1 }, by simp [SoundComputer.executeStep, hpc], rfl, rfl, rfl, rfl, ?_⟩
    simp [foldStep, decode_simple s reg arg hreg]
  | Mul reg arg =>
    obtain ⟨hr, -⟩ : reg = r ∧ argIsSafe arg = true := by
      simpa [simpleOn, Bool.and_eq_true, decide_eq_true_eq] using hsi
    subst hr
    refine ⟨{ s with registers := SoundComputer.writeReg s.registers reg (s.registers reg * s.decode_instruction_argument arg), mul_executions_count := s.mul_executions_count + 1, pc := s.pc + 1 }, by simp [SoundComputer.executeStep, hpc], rfl, rfl, rfl, rfl, ?_⟩
    simp [foldStep, decode_simple s reg arg hreg]
  | Mod reg arg =>
    obtain ⟨hr, -⟩ : reg = r ∧ argIsSafe arg = true := by
      simpa [simpleOn, Bool.and_eq_true, decide_eq_true_eq] using hsi
    subst hr
    refine ⟨{ s with registers := SoundComputer.writeReg s.registers reg (Int.tmod (s.registers reg) (s.decode_instruction_argument arg)), pc := s.pc + 1 }, by simp [SoundComputer.executeStep, hpc], rfl, rfl, rfl, rfl, ?_⟩
    simp [foldStep, decode_simple s reg arg hreg]
  | Snd arg => simp [simpleOn] at hsi
  | Rcv reg => simp [simpleOn] at hsi
  | Jgz a1 a2 => simp [simpleOn] at hsi
  | Jnz a1 a2 => simp [simpleOn] at hsi

lemma execute_loop_single_register (r : Char) :
    ∀ (rest : List Instruction) (s : SoundComputer),
      (∀ i ∈ rest, simpleOn r i = true) →
      s.halted = false → s.awaiting_input = false →
      s.instructions.drop s.pc = rest →
      (∀ c, c ≠ r → s.registers c = 0) →
      (SoundComputer.execute_loop (rest.length + 1) s).2 = true ∧
      (SoundComputer.execute_loop (rest.length + 1) s).1.halted = true ∧
      (SoundComputer.execute_loop (rest.length + 1) s).1.registers r
        = rest.foldl (foldStep r) (s.registers r) := by
  intro rest
  induction rest with
  | nil =>
    intro s hall hh ha hdrop hreg
    have hpc : s.instructions[s.pc]? = none := by
      have h0 : (s.instructions.drop s.pc)[0]? = s.instructions[s.pc]? := by simp
      rw [hdrop] at h0
      simpa using h0.symm
    simp [SoundComputer.execute_loop, SoundComputer.executeStep, hpc]
  | cons i rest ih =>
    intro s hall hh ha hdrop hreg
    have hpc : s.instructions[s.pc]? = some i := getElem_of_drop hdrop
    obtain ⟨t, hstep, hti, htpc, hth, hta, htr⟩ :=
      executeStep_simple s r i hpc (hall i (by simp)) hreg
    have hallrest : ∀ j ∈ rest, simpleOn r j = true := fun j hj => hall j (by simp [hj])
    have hdropt : t.instructions.drop t.pc = rest := by
      rw [hti, htpc]
      exact drop_succ_of_drop hdrop
    have hregt : ∀ c, c ≠ r → t.registers c = 0 := by
      intro c hc
      rw [htr]
      simp [SoundComputer.writeReg, hc, hreg c hc]
    have hrt : t.registers r = foldStep r (s.registers r) i := by
      rw [htr]
      simp [SoundComputer.writeReg]
    have ihres := ih t hallrest (hth.trans hh) (hta.trans ha) hdropt hregt
    have hlen : (i :: rest).length + 1 = rest.length + 1 + 1 := by simp
    rw [hlen]
    have hstep_loop : SoundComputer.execute_loop (rest.length + 1 + 1) s
        = SoundComputer.execute_loop (rest.length + 1) t := by
      rw [SoundComputer.execute_loop, hstep]
    rw [hstep_loop]
    refine ⟨ihres.1, ihres.2.1, ?_⟩
    rw [ihres.2.2, hrt]
    rw [List.foldl_cons]

/-- C3: a fresh machine running a program made only of `set`/`add`/`sub`/
`mul`/`mod` instructions all targeting the single register `r` halts with `r`
holding exactly the left-to-right fold of those operations starting from 0,
each operand resolved (literal, or register value at execution time) as the
fold reaches it. -/
theorem single_register_fold (prog : List Instruction) (r : Char) (d : Bool)
    (hr : 97 ≤ r.toNat ∧ r.toNat ≤ 122)
    (hall : ∀ i ∈ prog, simpleOn r i = true) :
    (SoundComputer.execute (prog.length + 1) (SoundComputer.new prog d)).2 = true ∧
    (SoundComputer.execute (prog.length + 1) (SoundComputer.new prog d)).1.halted = true ∧
    (SoundComputer.execute (prog.length + 1) (SoundComputer.new prog d)).1.registers r
      = prog.foldl (foldStep r) 0 := by
  have h := execute_loop_single_register r prog (SoundComputer.new prog d) hall rfl rfl
    (by simp [SoundComputer.new]) (fun c hc => rfl)
  simpa [SoundComputer.execute, SoundComputer.new] using h

/-- Witness for `single_register_fold`: `set a 5; add a a; mod a 3` leaves
register `a` holding `(5 + 5) tmod 3 = 1`. -/
theorem single_register_fold_witness :
    (∀ i ∈ ([.Set 'a' (.Value 5), .Add 'a' (.Register 'a'),
        .Mod 'a' (.Value 3)] : List Instruction), simpleOn 'a' i = true) ∧
    (SoundComputer.execute 4
        (SoundComputer.new
          [.Set 'a' (.Value 5), .Add 'a' (.Register 'a'), .Mod 'a' (.Value 3)]
          false)).1.registers 'a' = 1 := by
  constructor
  · decide
  · have h := single_register_fold
      [.Set 'a' (.Value 5), .Add 'a' (.Register 'a'), .Mod 'a' (.Value 3)] 'a' false
      (by decide) (by decide)
    exact (h.2.2).trans (by decide)

/-- The stop check at the top of the `solve_part2` driver loop in
`src/bin/day18.rs`: both machines halted, or machine 0 halted with machine 1
awaiting input, or both awaiting input.  (Note the check is asymmetric: there
is no case for machine 1 halted with machine 0 awaiting input.) -/
def driverStop (p : SoundComputer × SoundComputer) : Bool :=
  (p.1.is_halted && p.2.is_halted) ||
  (p.1.is_halted && p.2.is_awaiting_input) ||
  (p.1.is_awaiting_input && p.2.is_awaiting_input)

/-- The body of the `solve_part2` driver loop: run both machines, then, for
each machine that is awaiting input, drain the partner's outbound queue into
its inbound queue.  Returns `none` when the fuel given to an inner `execute`
call runs out (the real call would still be running). -/
def duetBody (fuel : Nat) (p : SoundComputer × SoundComputer) :
    Option (SoundComputer × SoundComputer) :=
  match SoundComputer.execute fuel p.1, SoundComputer.execute fuel p.2 with
  | (c0, true), (c1, true) =>
    let q1 := if c0.is_awaiting_input then
        (SoundComputer.receive_sounds c0 (SoundComputer.take_sent_sounds c1).1,
          (SoundComputer.take_sent_sounds c1).2)
      else (c0, c1)
    some (if q1.2.is_awaiting_input then
        ((SoundComputer.take_sent_sounds q1.1).2,
          SoundComputer.receive_sounds q1.2 (SoundComputer.take_sent_sounds q1.1).1)
      else q1)
  | _, _ => none

/-- The `solve_part2` driver loop with explicit iteration fuel: check the stop
conditions, else run the body and repeat.  `none` means the loop (or an inner
`execute`) was still running when the fuel ran out. -/
def duetLoop : Nat → Nat → (SoundComputer × SoundComputer) →
    Option (SoundComputer × SoundComputer)
  | 0, _, _ => none
  | Nat.succ n, fuel, p =>
    if driverStop p then some p
    else
      match duetBody fuel p with
      | none => none
      | some q => duetLoop n fuel q

/-- The machine pair `solve_part2` starts the driver loop from: two paired
machines on the same program, the second with register `p` set to 1. -/
def solve_part2_start (instructions : List Instruction) :
    SoundComputer × SoundComputer :=
  (SoundComputer.new instructions true,
   SoundComputer.update_register (SoundComputer.new instructions true) 'p' 1)

/-- Modelled from the spec: the three terminal conditions of the paired-mode
driver loop in the spec's words — "both machines are halted, or one is halted
and the other is awaiting input with nothing to receive, or both are
simultaneously awaiting input".  "Nothing to receive" is read as: the waiting
machine's inbound queue is empty and the halted partner's outbound queue is
empty. -/
def specTerminal (p : SoundComputer × SoundComputer) : Bool :=
  (p.1.is_halted && p.2.is_halted) ||
  (p.1.is_halted && p.2.is_awaiting_input &&
    p.2.sounds_received.isEmpty && p.1.sounds_sent.isEmpty) ||
  (p.2.is_halted && p.1.is_awaiting_input &&
    p.1.sounds_received.isEmpty && p.2.sounds_sent.isEmpty) ||
  (p.1.is_awaiting_input && p.2.is_awaiting_input)

/-- Invariant of the driver loop's checkpoint states: a machine that is
awaiting input at the top of the loop has an empty inbound queue and its
partner's outbound queue has been drained. -/
def duetInv (p : SoundComputer × SoundComputer) : Bool :=
  (!p.1.is_awaiting_input ||
    (p.1.sounds_received.isEmpty && p.2.sounds_sent.isEmpty)) &&
  (!p.2.is_awaiting_input ||
    (p.2.sounds_received.isEmpty && p.1.sounds_sent.isEmpty))

lemma receive_sounds_awaiting (s : SoundComputer) (vs : List Int)
    (h : (SoundComputer.receive_sounds s vs).awaiting_input = true) :
    (SoundComputer.receive_sounds s vs).sounds_received = [] := by
  unfold SoundComputer.receive_sounds at *
  by_cases he : (s.sounds_received ++ vs).isEmpty
  · rw [if_pos he] at *
    simpa using he
  · rw [if_neg he] at h
    simp at h

lemma receive_sounds_other (s : SoundComputer) (vs : List Int) :
    (SoundComputer.receive_sounds s vs).sounds_sent = s.sounds_sent ∧
    (SoundComputer.receive_sounds s vs).halted = s.halted := by
  unfold SoundComputer.receive_sounds
  split <;> simp

lemma duetBody_inv (fuel : Nat) (p q : SoundComputer × SoundComputer)
    (h : duetBody fuel p = some q) : duetInv q = true := by
  unfold duetBody at h
  rcases h0 : SoundComputer.execute fuel p.1 with ⟨c0, b0⟩
  rcases h1 : SoundComputer.execute fuel p.2 with ⟨c1, b1⟩
  rw [h0, h1] at h
  cases b0 <;> cases b1 <;> simp at h
  subst h
  simp only [SoundComputer.take_sent_sounds, SoundComputer.receive_sounds,
    SoundComputer.is_awaiting_input, duetInv, SoundComputer.is_halted]
  split_ifs <;> simp_all [List.isEmpty_iff]

lemma duetLoop_sound (n fuel : Nat) :
    ∀ p q, duetInv p = true → duetLoop n fuel p = some q →
      specTerminal q = true := by
  induction n with
  | zero => intro p q hp h; simp [duetLoop] at h
  | succ m ih =>
    intro p q hp h
    rw [duetLoop] at h
    by_cases hstop : driverStop p = true
    · rw [if_pos hstop] at h
      obtain rfl : p = q := by simpa using h
      rcases p with ⟨m0, m1⟩
      simp only [driverStop, specTerminal, duetInv, SoundComputer.is_halted,
        SoundComputer.is_awaiting_input] at hstop hp ⊢
      cases hh0 : m0.halted <;> cases ha0 : m0.awaiting_input <;>
        cases hh1 : m1.halted <;> cases ha1 : m1.awaiting_input <;>
        simp_all
    · rw [if_neg hstop] at h
      cases hb : duetBody fuel p with
      | none => rw [hb] at h; simp at h
      | some r =>
        rw [hb] at h
        exact ih r q (duetBody_inv fuel p r hb) h

/-- A program that echoes every received value back unchanged:
`rcv a; snd a; jnz-style loop back to the rcv` (here via `jgz 1 -2`). -/
def progEcho : List Instruction :=
  [.Rcv 'a', .Snd (.Register 'a'), .Jgz (.Value 1) (.Value (-2))]

/-- C1 (amended): whenever the day18 paired-mode driver loop stops, the pair
is in one of the spec's terminal conditions (soundness of the stop policy);
and the two paired machines running the echo program (registers `p` = 0 and
1) terminate via the both-awaiting-input deadlock condition, neither machine
halted.  The converse direction of the original claim — that the loop stops
whenever a spec terminal condition holds — is false: the code never checks
the symmetric condition "machine 1 halted and machine 0 awaiting with
nothing to receive" (see `duet_loop_missed_stop_cex`). -/
theorem duet_loop_stop_policy (n fuel : Nat) (p q : SoundComputer × SoundComputer)
    (hp : duetInv p = true) (h : duetLoop n fuel p = some q) :
    specTerminal q = true ∧
    (∃ e, duetLoop 2 4 (solve_part2_start progEcho) = some e ∧
      e.1.is_awaiting_input = true ∧ e.2.is_awaiting_input = true ∧
      e.1.is_halted = false ∧ e.2.is_halted = false) := by
  refine ⟨duetLoop_sound n fuel p q hp h, ⟨_, rfl, rfl, rfl, rfl, rfl⟩⟩

/-- Witness for `duet_loop_stop_policy` at a concrete pair of halted machines
(stopped by the both-halted condition in one loop check). -/
theorem duet_loop_stop_policy_witness :
    specTerminal
      ({ SoundComputer.new [] true with halted := true },
       { SoundComputer.new [] true with halted := true }) = true :=
  (duet_loop_stop_policy 1 0
    ({ SoundComputer.new [] true with halted := true },
     { SoundComputer.new [] true with halted := true })
    ({ SoundComputer.new [] true with halted := true },
     { SoundComputer.new [] true with halted := true })
    (by decide) rfl).1

/-- A program whose machine-1 instance (register `p` = 1) halts immediately
without sending, while machine 0 blocks on a `rcv`. -/
def progOneSided : List Instruction := [.Jgz (.Register 'p') (.Value 2), .Rcv 'a']

/-- The checkpoint state the driver loop reaches after one body iteration on
`progOneSided`: machine 1 halted, machine 0 awaiting input with nothing to
receive. -/
def stuckPair : SoundComputer × SoundComputer :=
  (duetBody 4 (solve_part2_start progOneSided)).getD (solve_part2_start progOneSided)

/-- Counterexample to C1 as stated: after one driver-loop iteration on
`progOneSided`, machine 1 is halted and machine 0 is awaiting input with both
relevant queues empty — the spec's "one halted, other awaiting with nothing
to receive" terminal condition holds — yet the code's stop check is false
(it only tests the mirrored combination), the loop body maps this state to
itself, and the loop keeps spinning (running the fuelled loop any number of
iterations from here never returns). -/
theorem duet_loop_missed_stop_cex :
    duetBody 4 (solve_part2_start progOneSided) = some stuckPair ∧
    stuckPair.2.is_halted = true ∧ stuckPair.1.is_awaiting_input = true ∧
    stuckPair.1.sounds_received = [] ∧ stuckPair.2.sounds_sent = [] ∧
    specTerminal stuckPair = true ∧
    driverStop stuckPair = false ∧
    duetBody 4 stuckPair = some stuckPair ∧
    duetLoop 9 4 stuckPair = none :=
  ⟨rfl, by decide, by decide, by decide, by decide, by decide, by decide, rfl, rfl⟩

/-- Whether a character is in `a`..`z` (the regex class `[a-z]`). -/
def isLowercaseLetter (c : Char) : Bool :=
  decide (97 ≤ c.toNat) && decide (c.toNat ≤ 122)

/-- The Unicode `Nd` (decimal digit number) codepoint ranges, per Unicode
14.0 — `fancy_regex` resolves the class `\d` to `\p{Nd}`. -/
def ndRanges : List (Nat × Nat) :=
  [(48, 57), (1632, 1641), (1776, 1785), (1984, 1993),
   (2406, 2415), (2534, 2543), (2662, 2671), (2790, 2799),
   (2918, 2927), (3046, 3055), (3174, 3183), (3302, 3311),
   (3430, 3439), (3558, 3567), (3664, 3673), (3792, 3801),
   (3872, 3881), (4160, 4169), (4240, 4249), (6112, 6121),
   (6160, 6169), (6470, 6479), (6608, 6617), (6784, 6793),
   (6800, 6809), (6992, 7001), (7088, 7097), (7232, 7241),
   (7248, 7257), (42528, 42537), (43216, 43225), (43264, 43273),
   (43472, 43481), (43504, 43513), (43600, 43609), (44016, 44025),
   (65296, 65305), (66720, 66729), (68912, 68921), (69734, 69743),
   (69872, 69881), (69942, 69951), (70096, 70105), (70384, 70393),
   (70736, 70745), (70864, 70873), (71248, 71257), (71360, 71369),
   (71472, 71481), (71904, 71913), (72016, 72025), (72784, 72793),
   (73040, 73049), (73120, 73129), (92768, 92777), (92864, 92873),
   (93008, 93017), (120782, 120831), (123200, 123209), (123632, 123641),
   (125264, 125273), (130032, 130041)]

/-- Whether a character is matched by the regex class `\d`: `fancy_regex` is
Unicode-aware by default, so this is any Unicode decimal digit (`\p{Nd}`),
not just ASCII `0`-`9`. -/
def isDigitChar (c : Char) : Bool :=
  ndRanges.any (fun r => decide (r.1 ≤ c.toNat) && decide (c.toNat ≤ r.2))

/-- Whether a character is an ASCII decimal digit (the only digits accepted
by `str::parse::<i64>`). -/
def isAsciiDigit (c : Char) : Bool :=
  decide (48 ≤ c.toNat) && decide (c.toNat ≤ 57)

/-- Value of a digit string (most significant digit first). -/
def digitsToNat (l : List Char) : Nat :=
  l.foldl (fun acc c => acc * 10 + (c.toNat - 48)) 0

/-- Whether a token matches the register operand group `([a-z])`. -/
def matchesRegisterTok : List Char → Bool
  | [c] => isLowercaseLetter c
  | _ => false

/-- Whether a token matches the integer alternative `-?\d+` of the operand
groups. -/
def matchesIntTok : List Char → Bool
  | [] => false
  | c :: rest =>
    if c = '-' then !rest.isEmpty && rest.all isDigitChar
    else isDigitChar c && rest.all isDigitChar

/-- Whether a token matches the full operand group `([a-z]|-?\d+)`. -/
def matchesArgTok (t : List Char) : Bool :=
  matchesRegisterTok t || matchesIntTok t

/-- Whether a token is an ASCII optionally-negated digit string — the only
shape (among the strings producible by the operand capture groups) that
`str::parse::<i64>` can accept. -/
def matchesAsciiIntTok : List Char → Bool
  | [] => false
  | c :: rest =>
    if c = '-' then !rest.isEmpty && rest.all isAsciiDigit
    else isAsciiDigit c && rest.all isAsciiDigit

/-- Signed value denoted by an ASCII `-?[0-9]+` token. -/
def intTokValue : List Char → Int
  | [] => 0
  | c :: rest =>
    if c = '-' then -((digitsToNat rest : Nat) : Int)
    else ((digitsToNat (c :: rest) : Nat) : Int)

/-- Whether a value fits in Rust's `i64`. -/
def i64InRange (v : Int) : Bool :=
  decide (-9223372036854775808 ≤ v) && decide (v ≤ 9223372036854775807)

/-- `str::parse::<i64>` on the strings producible by the operand capture
groups: succeeds exactly on an ASCII `-?[0-9]+` token whose value fits in
`i64`; in particular it rejects tokens containing non-ASCII Unicode digits. -/
def parseI64 (t : List Char) : Option Int :=
  if matchesAsciiIntTok t && i64InRange (intTokValue t) then some (intTokValue t)
  else none

namespace InstructionArgument

/-- `InstructionArgument::from_str` (applied to regex captures): first try
`parse::<i64>`, then `parse::<char>` (which succeeds exactly on
single-character strings). -/
def from_str (t : List Char) : Option InstructionArgument :=
  match parseI64 t with
  | some v => some (.Value v)
  | none =>
    match t with
    | [c] => some (.Register c)
    | _ => none

end InstructionArgument

/-- Outcome of `Instruction::from_str` on one line: a parsed instruction, an
`InstructionParseError`, or a panic (the `.unwrap()` on a failed argument
parse inside a matched regex branch). -/
inductive ParseOutcome where
  | ok (ins : Instruction)
  | err
  | panicked
  deriving DecidableEq

/-- Whether a parse outcome is a successfully parsed instruction. -/
def ParseOutcome.isOk : ParseOutcome → Bool
  | .ok _ => true
  | _ => false

/-- Build the outcome for a branch with one argument capture. -/
def mkArg1 (k : InstructionArgument → Instruction) (t : List Char) : ParseOutcome :=
  match InstructionArgument.from_str t with
  | some a => .ok (k a)
  | none => .panicked

/-- Build the outcome for a branch with one register capture. -/
def mkReg1 (k : Char → Instruction) (t : List Char) : ParseOutcome :=
  match t with
  | [c] => .ok (k c)
  | _ => .panicked

/-- Build the outcome for a branch with a register and an argument capture. -/
def mkRegArg (k : Char → InstructionArgument → Instruction) (t1 t2 : List Char) :
    ParseOutcome :=
  match t1, InstructionArgument.from_str t2 with
  | [c], some a => .ok (k c a)
  | _, _ => .panicked

/-- Build the outcome for a branch with two argument captures. -/
def mkArgArg (k : InstructionArgument → InstructionArgument → Instruction)
    (t1 t2 : List Char) : ParseOutcome :=
  match InstructionArgument.from_str t1, InstructionArgument.from_str t2 with
  | some a, some b => .ok (k a b)
  | _, _ => .panicked

def sndTok : List Char := ['s', 'n', 'd']
def setTok : List Char := ['s', 'e', 't']
def addTok : List Char := ['a', 'd', 'd']
def mulTok : List Char := ['m', 'u', 'l']
def modTok : List Char := ['m', 'o', 'd']
def rcvTok : List Char := ['r', 'c', 'v']
def jgzTok : List Char := ['j', 'g', 'z']
def subTok : List Char := ['s', 'u', 'b']
def jnzTok : List Char := ['j', 'n', 'z']

/-- `Instruction::from_str` at the level of space-separated tokens: the
if-else chain of anchored regex tests (`snd`, `set`, `add`, `mul`, `mod`,
`rcv`, `jgz`, `sub`, `jnz`), each followed by the unchecked `.unwrap()`
argument conversions of the matched captures.  Since each regex fixes its
opcode word and its number of space-separated operands, the chain is split by
token count. -/
def fromTokens : List (List Char) → ParseOutcome
  | [op, t1] =>
    if op = sndTok ∧ matchesArgTok t1 = true then mkArg1 .Snd t1
    else if op = rcvTok ∧ matchesRegisterTok t1 = true then mkReg1 .Rcv t1
    else .err
  | [op, t1, t2] =>
    if op = setTok ∧ matchesRegisterTok t1 = true ∧ matchesArgTok t2 = true then
      mkRegArg .Set t1 t2
    else if op = addTok ∧ matchesRegisterTok t1 = true ∧ matchesArgTok t2 = true then
      mkRegArg .Add t1 t2
    else if op = mulTok ∧ matchesRegisterTok t1 = true ∧ matchesArgTok t2 = true then
      mkRegArg .Mul t1 t2
    else if op = modTok ∧ matchesRegisterTok t1 = true ∧ matchesArgTok t2 = true then
      mkRegArg .Mod t1 t2
    else if op = jgzTok ∧ matchesArgTok t1 = true ∧ matchesArgTok t2 = true then
      mkArgArg .Jgz t1 t2
    else if op = subTok ∧ matchesRegisterTok t1 = true ∧ matchesArgTok t2 = true then
      mkRegArg .Sub t1 t2
    else if op = jnzTok ∧ matchesArgTok t1 = true ∧ matchesArgTok t2 = true then
      mkArgArg .Jnz t1 t2
    else .err
  | _ => .err

/-- Modelled from the spec: the nine opcode grammars of the program text
format — `snd X`, `set R X`, `add R X`, `mul R X`, `mod R X`, `rcv R`,
`jgz X Y`, `sub R X`, `jnz X Y`, with `R` a single lowercase letter and
`X`/`Y` a single lowercase letter or an optionally-signed decimal integer
(refinement comparison definition, following the spec's words). -/
def matchesGrammarTokens : List (List Char) → Bool
  | [op, t1] =>
    (decide (op = sndTok) && matchesArgTok t1) ||
    (decide (op = rcvTok) && matchesRegisterTok t1)
  | [op, t1, t2] =>
    ((decide (op = setTok) || decide (op = addTok) || decide (op = mulTok) ||
      decide (op = modTok) || decide (op = subTok)) &&
      matchesRegisterTok t1 && matchesArgTok t2) ||
    ((decide (op = jgzTok) || decide (op = jnzTok)) &&
      matchesArgTok t1 && matchesArgTok t2)
  | _ => false

/-- Whether the `.unwrap()`ed `InstructionArgument::from_str` conversion of
an operand capture succeeds: the token parses as an in-range `i64`, or is a
single character (and becomes a `Register` argument — even when that
character is a non-ASCII Unicode digit). -/
def argTokConverts (t : List Char) : Bool :=
  (parseI64 t).isSome || decide (t.length = 1)

/-- Whether every operand token of a tokenised line converts. -/
def tokensConvert : List (List Char) → Bool
  | [_, t1] => argTokConverts t1
  | [_, t1, t2] => argTokConverts t1 && argTokConverts t2
  | _ => true

/-- Split a line on single spaces: the token shapes accepted by the anchored
regexes `^op tok$` / `^op tok tok$`. -/
def splitSpaces : List Char → List (List Char)
  | [] => [[]]
  | c :: rest =>
    if c = ' ' then [] :: splitSpaces rest
    else
      match splitSpaces rest with
      | [] => [[c]]
      | t :: ts => (c :: t) :: ts

/-- `Instruction::from_str` on a line of text. -/
def Instruction.from_str (s : String) : ParseOutcome :=
  fromTokens (splitSpaces s.toList)

/-- `Instruction::parse_raw_input` on the list of lines of the input text:
`.lines().map(|l| from_str(l).unwrap())`, which fails (panics) at the first
line whose parse is not `Ok`. -/
def Instruction.parse_raw_input : List String → Option (List Instruction)
  | [] => some []
  | line :: rest =>
    match Instruction.from_str line with
    | .ok ins => (Instruction.parse_raw_input rest).map (ins :: ·)
    | _ => none


lemma bool_eq_false_iff (b : Bool) : b = false ↔ ¬(b = true) := by
  cases b <;> simp

lemma registerTok_singleton {t : List Char} (h : matchesRegisterTok t = true) :
    ∃ c, t = [c] ∧ isLowercaseLetter c = true := by
  cases t with
  | nil => simp [matchesRegisterTok] at h
  | cons a l =>
    cases l with
    | nil => exact ⟨a, rfl, by simpa [matchesRegisterTok] using h⟩
    | cons b l2 => simp [matchesRegisterTok] at h

lemma from_str_isSome (t : List Char) :
    (InstructionArgument.from_str t).isSome = argTokConverts t := by
  unfold InstructionArgument.from_str argTokConverts
  cases hp : parseI64 t with
  | some v => simp
  | none =>
    cases t with
    | nil => simp [hp]
    | cons a l =>
      cases l with
      | nil => simp [hp]
      | cons b l2 => simp [hp]

lemma registerTok_converts {t : List Char} (h : matchesRegisterTok t = true) :
    argTokConverts t = true := by
  obtain ⟨c, rfl, -⟩ := registerTok_singleton h
  simp [argTokConverts]

lemma mkArg1_not_err (k : InstructionArgument → Instruction) (t : List Char) :
    mkArg1 k t ≠ .err := by
  unfold mkArg1
  cases h : InstructionArgument.from_str t <;> simp

lemma mkArg1_isOk (k : InstructionArgument → Instruction) (t : List Char) :
    (mkArg1 k t).isOk = (InstructionArgument.from_str t).isSome := by
  unfold mkArg1
  cases h : InstructionArgument.from_str t <;> simp [ParseOutcome.isOk]

lemma mkReg1_ok {t : List Char} (h : matchesRegisterTok t = true)
    (k : Char → Instruction) :
    (mkReg1 k t).isOk = true ∧ mkReg1 k t ≠ .err := by
  obtain ⟨c, rfl, -⟩ := registerTok_singleton h
  simp [mkReg1, ParseOutcome.isOk]

lemma mkRegArg_props {t1 : List Char} (h1 : matchesRegisterTok t1 = true)
    (k : Char → InstructionArgument → Instruction) (t2 : List Char) :
    mkRegArg k t1 t2 ≠ .err ∧
    (mkRegArg k t1 t2).isOk = (InstructionArgument.from_str t2).isSome := by
  obtain ⟨c, rfl, -⟩ := registerTok_singleton h1
  unfold mkRegArg
  cases h : InstructionArgument.from_str t2 <;> simp [ParseOutcome.isOk]

lemma mkArgArg_props (k : InstructionArgument → InstructionArgument → Instruction)
    (t1 t2 : List Char) :
    mkArgArg k t1 t2 ≠ .err ∧
    (mkArgArg k t1 t2).isOk
      = ((InstructionArgument.from_str t1).isSome &&
          (InstructionArgument.from_str t2).isSome) := by
  unfold mkArgArg
  cases h1 : InstructionArgument.from_str t1 <;>
    cases h2 : InstructionArgument.from_str t2 <;> simp [ParseOutcome.isOk]

lemma grammar2_iff (op t1 : List Char) :
    matchesGrammarTokens [op, t1] = true ↔
      (op = sndTok ∧ matchesArgTok t1 = true) ∨
      (op = rcvTok ∧ matchesRegisterTok t1 = true) := by
  simp [matchesGrammarTokens, Bool.or_eq_true, Bool.and_eq_true, decide_eq_true_eq]

lemma grammar3_iff (op t1 t2 : List Char) :
    matchesGrammarTokens [op, t1, t2] = true ↔
      ((op = setTok ∨ op = addTok ∨ op = mulTok ∨ op = modTok ∨ op = subTok) ∧
        matchesRegisterTok t1 = true ∧ matchesArgTok t2 = true) ∨
      ((op = jgzTok ∨ op = jnzTok) ∧
        matchesArgTok t1 = true ∧ matchesArgTok t2 = true) := by
  simp [matchesGrammarTokens, Bool.or_eq_true, Bool.and_eq_true, decide_eq_true_eq]
  tauto

lemma fromTokens_err_iff (ts : List (List Char)) :
    fromTokens ts = .err ↔ matchesGrammarTokens ts = false := by
  rcases ts with _ | ⟨op, _ | ⟨t1, _ | ⟨t2, _ | ⟨t3, rest⟩⟩⟩⟩
  · simp [fromTokens, matchesGrammarTokens]
  · simp [fromTokens, matchesGrammarTokens]
  · rw [bool_eq_false_iff, grammar2_iff]
    by_cases g1 : op = sndTok ∧ matchesArgTok t1 = true
    · simp only [fromTokens, if_pos g1]
      constructor
      · intro he; exact absurd he (mkArg1_not_err _ _)
      · intro hn; exact absurd (Or.inl g1) hn
    · by_cases g2 : op = rcvTok ∧ matchesRegisterTok t1 = true
      · simp only [fromTokens, if_neg g1, if_pos g2]
        constructor
        · intro he; exact absurd he (mkReg1_ok g2.2 _).2
        · intro hn; exact absurd (Or.inr g2) hn
      · simp only [fromTokens, if_neg g1, if_neg g2]
        constructor
        · intro _ hor
          rcases hor with hh | hh
          exacts [g1 hh, g2 hh]
        · intro _; trivial
  · rw [bool_eq_false_iff, grammar3_iff]
    by_cases g1 : op = setTok ∧ matchesRegisterTok t1 = true ∧ matchesArgTok t2 = true
    · simp only [fromTokens, if_pos g1]
      constructor
      · intro he; exact absurd he (mkRegArg_props g1.2.1 _ _).1
      · intro hn; exact absurd (Or.inl ⟨Or.inl g1.1, g1.2⟩) hn
    · by_cases g2 : op = addTok ∧ matchesRegisterTok t1 = true ∧ matchesArgTok t2 = true
      · simp only [fromTokens, if_neg g1, if_pos g2]
        constructor
        · intro he; exact absurd he (mkRegArg_props g2.2.1 _ _).1
        · intro hn; exact absurd (Or.inl ⟨Or.inr (Or.inl g2.1), g2.2⟩) hn
      · by_cases g3 : op = mulTok ∧ matchesRegisterTok t1 = true ∧ matchesArgTok t2 = true
        · simp only [fromTokens, if_neg g1, if_neg g2, if_pos g3]
          constructor
          · intro he; exact absurd he (mkRegArg_props g3.2.1 _ _).1
          · intro hn; exact absurd (Or.inl ⟨Or.inr (Or.inr (Or.inl g3.1)), g3.2⟩) hn
        · by_cases g4 : op = modTok ∧ matchesRegisterTok t1 = true ∧ matchesArgTok t2 = true
          · simp only [fromTokens, if_neg g1, if_neg g2, if_neg g3, if_pos g4]
            constructor
            · intro he; exact absurd he (mkRegArg_props g4.2.1 _ _).1
            · intro hn
              exact absurd (Or.inl ⟨Or.inr (Or.inr (Or.inr (Or.inl g4.1))), g4.2⟩) hn
          · by_cases g5 : op = jgzTok ∧ matchesArgTok t1 = true ∧ matchesArgTok t2 = true
            · simp only [fromTokens, if_neg g1, if_neg g2, if_neg g3, if_neg g4, if_pos g5]
              constructor
              · intro he; exact absurd he (mkArgArg_props _ _ _).1
              · intro hn; exact absurd (Or.inr ⟨Or.inl g5.1, g5.2⟩) hn
            · by_cases g6 : op = subTok ∧ matchesRegisterTok t1 = true ∧ matchesArgTok t2 = true
              · simp only [fromTokens, if_neg g1, if_neg g2, if_neg g3, if_neg g4,
                  if_neg g5, if_pos g6]
                constructor
                · intro he; exact absurd he (mkRegArg_props g6.2.1 _ _).1
                · intro hn
                  exact absurd (Or.inl ⟨Or.inr (Or.inr (Or.inr (Or.inr g6.1))), g6.2⟩) hn
              · by_cases g7 : op = jnzTok ∧ matchesArgTok t1 = true ∧ matchesArgTok t2 = true
                · simp only [fromTokens, if_neg g1, if_neg g2, if_neg g3, if_neg g4,
                    if_neg g5, if_neg g6, if_pos g7]
                  constructor
                  · intro he; exact absurd he (mkArgArg_props _ _ _).1
                  · intro hn; exact absurd (Or.inr ⟨Or.inr g7.1, g7.2⟩) hn
                · simp only [fromTokens, if_neg g1, if_neg g2, if_neg g3, if_neg g4,
                    if_neg g5, if_neg g6, if_neg g7]
                  constructor
                  · intro _ hd
                    rcases hd with ⟨hop, hreg, harg⟩ | ⟨hop, ha1, ha2⟩
                    · rcases hop with h | h | h | h | h
                      exacts [g1 ⟨h, hreg, harg⟩, g2 ⟨h, hreg, harg⟩,
                        g3 ⟨h, hreg, harg⟩, g4 ⟨h, hreg, harg⟩, g6 ⟨h, hreg, harg⟩]
                    · rcases hop with h | h
                      exacts [g5 ⟨h, ha1, ha2⟩, g7 ⟨h, ha1, ha2⟩]
                  · intro _; trivial
  · simp [fromTokens, matchesGrammarTokens]

lemma fromTokens_isOk (ts : List (List Char)) (hg : matchesGrammarTokens ts = true) :
    (fromTokens ts).isOk = tokensConvert ts := by
  rcases ts with _ | ⟨op, _ | ⟨t1, _ | ⟨t2, _ | ⟨t3, rest⟩⟩⟩⟩
  · simp [matchesGrammarTokens] at hg
  · simp [matchesGrammarTokens] at hg
  · by_cases g1 : op = sndTok ∧ matchesArgTok t1 = true
    · simp only [fromTokens, if_pos g1]
      rw [mkArg1_isOk, from_str_isSome]
      simp [tokensConvert]
    · by_cases g2 : op = rcvTok ∧ matchesRegisterTok t1 = true
      · simp only [fromTokens, if_neg g1, if_pos g2]
        rw [(mkReg1_ok g2.2 _).1]
        simp [tokensConvert, registerTok_converts g2.2]
      · rcases (grammar2_iff op t1).mp hg with hh | hh
        exacts [absurd hh g1, absurd hh g2]
  · by_cases g1 : op = setTok ∧ matchesRegisterTok t1 = true ∧ matchesArgTok t2 = true
    · simp only [fromTokens, if_pos g1]
      rw [(mkRegArg_props g1.2.1 _ _).2, from_str_isSome]
      simp [tokensConvert, registerTok_converts g1.2.1]
    · by_cases g2 : op = addTok ∧ matchesRegisterTok t1 = true ∧ matchesArgTok t2 = true
      · simp only [fromTokens, if_neg g1, if_pos g2]
        rw [(mkRegArg_props g2.2.1 _ _).2, from_str_isSome]
        simp [tokensConvert, registerTok_converts g2.2.1]
      · by_cases g3 : op = mulTok ∧ matchesRegisterTok t1 = true ∧ matchesArgTok t2 = true
        · simp only [fromTokens, if_neg g1, if_neg g2, if_pos g3]
          rw [(mkRegArg_props g3.2.1 _ _).2, from_str_isSome]
          simp [tokensConvert, registerTok_converts g3.2.1]
        · by_cases g4 : op = modTok ∧ matchesRegisterTok t1 = true ∧ matchesArgTok t2 = true
          · simp only [fromTokens, if_neg g1, if_neg g2, if_neg g3, if_pos g4]
            rw [(mkRegArg_props g4.2.1 _ _).2, from_str_isSome]
            simp [tokensConvert, registerTok_converts g4.2.1]
          · by_cases g5 : op = jgzTok ∧ matchesArgTok t1 = true ∧ matchesArgTok t2 = true
            · simp only [fromTokens, if_neg g1, if_neg g2, if_neg g3, if_neg g4, if_pos g5]
              rw [(mkArgArg_props _ _ _).2]
              simp only [from_str_isSome]
              simp [tokensConvert]
            · by_cases g6 : op = subTok ∧ matchesRegisterTok t1 = true ∧ matchesArgTok t2 = true
              · simp only [fromTokens, if_neg g1, if_neg g2, if_neg g3, if_neg g4,
                  if_neg g5, if_pos g6]
                rw [(mkRegArg_props g6.2.1 _ _).2, from_str_isSome]
                simp [tokensConvert, registerTok_converts g6.2.1]
              · by_cases g7 : op = jnzTok ∧ matchesArgTok t1 = true ∧ matchesArgTok t2 = true
                · simp only [fromTokens, if_neg g1, if_neg g2, if_neg g3, if_neg g4,
                    if_neg g5, if_neg g6, if_pos g7]
                  rw [(mkArgArg_props _ _ _).2]
                  simp only [from_str_isSome]
                  simp [tokensConvert]
                · exfalso
                  rcases (grammar3_iff op t1 t2).mp hg with ⟨hop, hreg, harg⟩ | ⟨hop, ha1, ha2⟩
                  · rcases hop with h | h | h | h | h
                    exacts [g1 ⟨h, hreg, harg⟩, g2 ⟨h, hreg, harg⟩,
                      g3 ⟨h, hreg, harg⟩, g4 ⟨h, hreg, harg⟩, g6 ⟨h, hreg, harg⟩]
                  · rcases hop with h | h
                    exacts [g5 ⟨h, ha1, ha2⟩, g7 ⟨h, ha1, ha2⟩]
  · simp [matchesGrammarTokens] at hg

lemma parse_raw_fails (post : List String) (bad : String)
    (hbad : (Instruction.from_str bad).isOk = false) :
    ∀ pre : List String, (∀ l ∈ pre, (Instruction.from_str l).isOk = true) →
      Instruction.parse_raw_input (pre ++ bad :: post) = none := by
  intro pre
  induction pre with
  | nil =>
    intro _
    simp only [List.nil_append, Instruction.parse_raw_input]
    cases hb : Instruction.from_str bad with
    | ok i => rw [hb] at hbad; simp [ParseOutcome.isOk] at hbad
    | err => simp [hb]
    | panicked => simp [hb]
  | cons l pre ih =>
    intro hall
    have hl := hall l (by simp)
    cases hli : Instruction.from_str l with
    | ok i =>
      have hrest := ih (fun x hx => hall x (by simp [hx]))
      simp [Instruction.parse_raw_input, hli, hrest]
    | err => rw [hli] at hl; simp [ParseOutcome.isOk] at hl
    | panicked => rw [hli] at hl; simp [ParseOutcome.isOk] at hl

/-- C8 (amended): a tokenised line yields `InstructionParseError` exactly
when it matches none of the nine opcode grammars, where `\d` in the operand
groups is any Unicode decimal digit (`fancy_regex` resolves `\d` to
`\p{Nd}`); a grammar-matching line parses to `Ok` exactly when each of its
operand captures converts — i.e. parses as an `i64` (ASCII digits, value in
range) or is a single character; a grammar-matching line with an operand
that does neither (an out-of-range literal, or a multi-character numeral
with non-ASCII digits) panics on the `.unwrap()` of the failed conversion
(see `from_str_overflow_panics_cex`, which also shows a single Unicode-digit
numeral being parsed as a `Register`, not a literal); and loading a list of
lines fails at the first line that does not parse to `Ok`, before any
execution. -/
theorem from_str_grammar (ts : List (List Char)) (pre post : List String)
    (bad : String)
    (hpre : ∀ l ∈ pre, (Instruction.from_str l).isOk = true)
    (hbad : (Instruction.from_str bad).isOk = false) :
    (fromTokens ts = .err ↔ matchesGrammarTokens ts = false) ∧
    (matchesGrammarTokens ts = true → (fromTokens ts).isOk = tokensConvert ts) ∧
    Instruction.parse_raw_input (pre ++ bad :: post) = none :=
  ⟨fromTokens_err_iff ts, fromTokens_isOk ts, parse_raw_fails post bad hbad pre hpre⟩

/-- Witness for `from_str_grammar` at concrete lines: `set a -3` parses to
`Ok`, and a program whose second line is `nope` fails to load. -/
theorem from_str_grammar_witness :
    (fromTokens (splitSpaces ("set a -3".toList))).isOk = true ∧
    Instruction.parse_raw_input ["snd 1", "nope", "set a 2"] = none := by
  have h := from_str_grammar (splitSpaces ("set a -3".toList)) ["snd 1"] ["set a 2"]
    "nope" (by decide) (by decide)
  refine ⟨?_, h.2.2⟩
  rw [h.2.1 (by decide)]
  decide

/-- Counterexample to C8 as stated: the line `snd 9223372036854775808`
matches the `snd X` grammar (its operand is an optionally-signed decimal
integer), but `Instruction::from_str` does not return `Ok` for it — the
literal exceeds `i64::MAX = 9223372036854775807`, `parse::<i64>` fails, and
the `.unwrap()` panics; at the boundary, `snd 9223372036854775807` still
parses to `Ok`.  Moreover `fancy_regex`'s `\d` is Unicode-aware, so
`snd ٣٣` (two Arabic-Indic digits) also matches the grammar yet panics
(`parse::<i64>` rejects non-ASCII digits, `parse::<char>` rejects two
characters), while the single-digit `snd ٣` returns `Ok` — but as
`Snd (Register '٣')`, not the instruction with literal operand 3 that the
grammar's "decimal integer" reading denotes. -/
theorem from_str_overflow_panics_cex :
    matchesGrammarTokens (splitSpaces ("snd 9223372036854775808".toList)) = true ∧
    Instruction.from_str "snd 9223372036854775808" = .panicked ∧
    Instruction.from_str "snd 9223372036854775807"
      = .ok (.Snd (.Value 9223372036854775807)) ∧
    matchesGrammarTokens (splitSpaces ("snd ٣٣".toList)) = true ∧
    Instruction.from_str "snd ٣٣" = .panicked ∧
    Instruction.from_str "snd ٣" = .ok (.Snd (.Register '٣')) := by
  refine ⟨by decide, by decide, by decide, by decide, by decide, by decide⟩
